import Mathlib

/-!
Verification of the Besos two-party chat message-synchronization core.

The definitions below are a shallow embedding of the source:
* `Language`, `Reaction`, `ChatMessage`, `TranslationResponse` embed the
  interfaces of `types.ts`; the JS `Date` timestamp is modelled as a `Nat`
  (milliseconds, the value of `Date.now()`), and `Date.now().toString()`
  as `Nat.repr`.
* `merge` embeds the `channel.onmessage` handler of `App.tsx`: find the
  index of an entry with the incoming id; replace in place when found,
  append otherwise.
* `toggleReactionList`, `toggleMsg`, `handleToggleReaction` embed
  `handleToggleReaction`: a map over the log that toggles the
  `(emoji, sender)` reaction on every entry whose id matches, broadcasting
  each updated record; the second component of the result collects the
  records posted on the sync channel.
* `createdMessage`, `handleTranslationResult` embed
  `handleTranslationResult`: build a fresh message with empty reactions,
  append it locally and broadcast it.
* `handleSendText` embeds the guard and the success path of
  `handleSendText`; the translation gateway is a function argument and the
  `translationCalls` field records the calls made to it.
* `RecorderState`, `startRecording`, `stopRecording` embed the
  `useAudioRecorder` hook of `hooks/useAudioRecorder.ts`; the audio blob
  is modelled as the concatenation of the accumulated chunk strings, and
  the promise rejection `"No recorder found"` as the error value
  `RecorderError.NoActiveRecording` (the spec's name for it).
-/

namespace Besos

/-- The two participant roles (`Language` in `types.ts`). -/
inductive Language where
  | english
  | spanish
deriving DecidableEq, Inhabited

/-- A reaction: `{emoji: string, sender: Language}`. -/
structure Reaction where
  emoji : String
  sender : Language
deriving DecidableEq, Inhabited

/-- A chat message (`ChatMessage` in `types.ts`); `timestamp` is the
`Date.now()` millisecond value, `audioUrl` the optional data URI. -/
structure ChatMessage where
  id : String
  sender : Language
  originalText : String
  translatedText : String
  timestamp : Nat
  reactions : List Reaction
  audioUrl : Option String
deriving DecidableEq, Inhabited

/-- A translation gateway result: `{transcription, translation}`. -/
structure TranslationResponse where
  transcription : String
  translation : String
deriving DecidableEq, Inhabited

/-- The `channel.onmessage` merge handler: look for an existing entry with
the incoming message's id (`findIndex`); when one exists, overwrite that
slot with the incoming record (`newArr[index] = incomingMessage`),
otherwise append (`[...prev, incomingMessage]`). -/
def merge (prev : List ChatMessage) (incoming : ChatMessage) : List ChatMessage :=
  match prev.findIdx? (fun m => m.id == incoming.id) with
  | some index => prev.set index incoming
  | none => prev ++ [incoming]

/-- The predicate of the `findIndex` call in `handleToggleReaction`:
`r.emoji === emoji && r.sender === myRole`. -/
def reactionMatches (emoji : String) (role : Language) (r : Reaction) : Bool :=
  r.emoji == emoji && r.sender == role

/-- The reaction-list update inside `handleToggleReaction`: if a reaction
with this exact `(emoji, sender)` exists, remove it at its index
(`splice(existingReactionIndex, 1)`), otherwise append one (`push`). -/
def toggleReactionList (reactions : List Reaction) (emoji : String) (role : Language) :
    List Reaction :=
  match reactions.findIdx? (reactionMatches emoji role) with
  | some index => reactions.eraseIdx index
  | none => reactions ++ [⟨emoji, role⟩]

/-- The per-message update of `handleToggleReaction`:
`{ ...msg, reactions: newReactions }`. -/
def toggleMsg (emoji : String) (role : Language) (msg : ChatMessage) : ChatMessage :=
  { msg with reactions := toggleReactionList msg.reactions emoji role }

/-- `handleToggleReaction`: a no-op when no role is bound (`if (!myRole) return`);
otherwise map over the log, leaving entries with a different id unchanged
(`if (msg.id !== msgId) return msg`) and toggling the reaction on matching
entries. The source posts each updated record on the broadcast channel from
inside the map; the second component collects those posted records. -/
def handleToggleReaction (messages : List ChatMessage) (msgId emoji : String)
    (myRole : Option Language) : List ChatMessage × List ChatMessage :=
  match myRole with
  | none => (messages, [])
  | some role =>
    (messages.map (fun msg => if msg.id == msgId then toggleMsg emoji role msg else msg),
     messages.filterMap (fun msg =>
       if msg.id == msgId then some (toggleMsg emoji role msg) else none))

/-- The message record built by `handleTranslationResult`: fresh id
`Date.now().toString()` (`Nat.repr now`), empty reactions. -/
def createdMessage (result : TranslationResponse) (sourceLang : Language) (now : Nat)
    (audioUrl : Option String) : ChatMessage :=
  { id := Nat.repr now
    sender := sourceLang
    originalText := result.transcription
    translatedText := result.translation
    timestamp := now
    reactions := []
    audioUrl := audioUrl }

/-- `handleTranslationResult`: append the new message to the local log
(`setMessages((prev) => [...prev, newMessage])`) and broadcast it
(`channelRef.current?.postMessage(newMessage)`); the second component is
the list of broadcast records. -/
def handleTranslationResult (messages : List ChatMessage) (result : TranslationResponse)
    (sourceLang : Language) (now : Nat) (audioUrl : Option String) :
    List ChatMessage × List ChatMessage :=
  (messages ++ [createdMessage result sourceLang now audioUrl],
   [createdMessage result sourceLang now audioUrl])

/-- The observable outcome of a text send: the resulting log, the records
broadcast on the channel, the calls made to the translation gateway, and
the input field's content afterwards. -/
structure SendTextResult where
  messages : List ChatMessage
  broadcasts : List ChatMessage
  translationCalls : List (String × Language)
  inputText : String
deriving DecidableEq, Inhabited

/-- `handleSendText`: the guard `if (!inputText.trim() || isProcessing ||
!myRole) return;` makes the call a no-op; otherwise the input is cleared,
`translateText(textToSend, myRole)` is invoked and its result handed to
`handleTranslationResult`. -/
def handleSendText (inputText : String) (isProcessing : Bool) (myRole : Option Language)
    (messages : List ChatMessage) (translate : String → Language → TranslationResponse)
    (now : Nat) : SendTextResult :=
  if inputText.trim = "" ∨ isProcessing = true ∨ myRole = none then
    { messages := messages, broadcasts := [], translationCalls := [], inputText := inputText }
  else
    match myRole with
    | some role =>
      { messages := (handleTranslationResult messages (translate inputText role) role now none).1
        broadcasts := (handleTranslationResult messages (translate inputText role) role now none).2
        translationCalls := [(inputText, role)]
        inputText := "" }
    | none =>
      { messages := messages, broadcasts := [], translationCalls := [], inputText := inputText }

/-- The media recorder held in `mediaRecorderRef`, reduced to what the hook
observes of it: the accumulated data chunks (`chunksRef`). -/
structure MediaRecorderModel where
  chunks : List String
deriving DecidableEq, Inhabited

/-- The state of the `useAudioRecorder` hook: `isRecording`,
`recordingTime`, and the recorder reference (`none` iff no successful
`startRecording` has installed one). -/
structure RecorderState where
  isRecording : Bool
  recordingTime : Nat
  mediaRecorder : Option MediaRecorderModel
deriving DecidableEq, Inhabited

/-- The recorder's failure values; `NoActiveRecording` is the spec's name
for the promise rejection `"No recorder found"`. -/
inductive RecorderError where
  | NoActiveRecording
deriving DecidableEq, Inhabited

/-- The hook's initial state: not recording, timer at zero, no recorder. -/
def initialRecorderState : RecorderState :=
  { isRecording := false, recordingTime := 0, mediaRecorder := none }

/-- `startRecording`: when `getUserMedia` fails (`granted = false`) the
catch block only notifies the user and the state is untouched; on success a
fresh recorder with empty chunks is installed, `isRecording` is set and the
timer restarts from zero. -/
def startRecording (st : RecorderState) (granted : Bool) : RecorderState :=
  if granted then
    { isRecording := true, recordingTime := 0, mediaRecorder := some { chunks := [] } }
  else
    st

/-- `stopRecording`: with no recorder installed the promise is rejected
(`if (!mediaRecorder) return reject("No recorder found")`) and no state is
written; otherwise the chunks are assembled into one payload (modelled as
their concatenation, standing for the Base64 string), the timer is cleared
and `isRecording` reset. -/
def stopRecording (st : RecorderState) : Except RecorderError (String × RecorderState) :=
  match st.mediaRecorder with
  | none => .error .NoActiveRecording
  | some rec =>
    .ok (String.join rec.chunks,
      { st with isRecording := false, recordingTime := 0 })

/-- The decimal character string `Nat.toDigits 10` produces, re-expressed
through `Nat.digits`; used to reason about the ids
`Date.now().toString()` generates. -/
def decChars (n : Nat) : List Char :=
  if n = 0 then ['0'] else ((Nat.digits 10 n).map Nat.digitChar).reverse

/-- A local operation against the in-tab message store: a message creation
(`handleTranslationResult`) or a reaction toggle (`handleToggleReaction`
with a bound role). -/
inductive LocalOp where
  | createOp (result : TranslationResponse) (sourceLang : Language) (now : Nat)
      (audioUrl : Option String)
  | toggleOp (msgId emoji : String) (role : Language)

/-- Apply a local operation to the log, keeping the resulting local log. -/
def applyLocalOp (log : List ChatMessage) : LocalOp → List ChatMessage
  | .createOp result lang now audioUrl => (handleTranslationResult log result lang now audioUrl).1
  | .toggleOp msgId emoji role => (handleToggleReaction log msgId emoji (some role)).1

/-- The data-model invariant of §3: every message carries at most one
reaction per `(emoji, sender)` pair. -/
def ReactionUniq (log : List ChatMessage) : Prop :=
  ∀ m ∈ log, ∀ (emoji : String) (s : Language),
    (m.reactions.filter (reactionMatches emoji s)).length ≤ 1

/-! ### Sample records used by the closed witness and counterexample
statements -/

/-- A sample message with id `"1"`. -/
def sampleMsg1 : ChatMessage :=
  { id := "1", sender := .english, originalText := "hola", translatedText := "hello"
    timestamp := 100, reactions := [], audioUrl := none }

/-- A second snapshot of the message with id `"1"`, carrying a different
reaction set. -/
def sampleMsg1' : ChatMessage :=
  { id := "1", sender := .english, originalText := "hola", translatedText := "hello"
    timestamp := 100, reactions := [⟨"heart", .spanish⟩], audioUrl := none }

/-- A sample message with id `"2"`. -/
def sampleMsg2 : ChatMessage :=
  { id := "2", sender := .spanish, originalText := "que", translatedText := "what"
    timestamp := 150, reactions := [], audioUrl := none }

/-- A sample message with id `"1"` and a two-element reaction list whose
first entry is the English speaker's `"heart"`. -/
def sampleMsgR : ChatMessage :=
  { id := "1", sender := .english, originalText := "hola", translatedText := "hello"
    timestamp := 100, reactions := [⟨"heart", .english⟩, ⟨"laugh", .spanish⟩]
    audioUrl := none }

/-! ### Lemmas about `merge` -/

/-- Unfolding of `merge` on a cons cell: the head is replaced when its id
matches, otherwise the merge recurses into the tail. -/
theorem merge_cons (m : ChatMessage) (rest : List ChatMessage) (incoming : ChatMessage) :
    merge (m :: rest) incoming =
      if m.id == incoming.id then incoming :: rest else m :: merge rest incoming := by
  unfold merge
  rw [List.findIdx?_cons]
  by_cases h : m.id == incoming.id
  · simp [h]
  · simp only [h, Bool.false_eq_true, if_false]
    cases hfi : rest.findIdx? (fun x => x.id == incoming.id) <;> simp [hfi]

/-- When no entry carries the incoming id, `merge` appends. -/
theorem merge_eq_append (prev : List ChatMessage) (incoming : ChatMessage)
    (h : ∀ m ∈ prev, m.id ≠ incoming.id) : merge prev incoming = prev ++ [incoming] := by
  induction prev with
  | nil => rfl
  | cons a rest ih =>
    rw [merge_cons]
    have ha : (a.id == incoming.id) = false := by
      simp only [beq_eq_false_iff_ne, ne_eq]
      exact h a (List.mem_cons_self a rest)
    rw [ha]
    simp only [Bool.false_eq_true, if_false, List.cons_append, List.cons.injEq, true_and]
    exact ih (fun m hm => h m (List.mem_cons_of_mem a hm))

/-- When position `i` holds the first entry carrying the incoming id,
`merge` overwrites exactly that slot. -/
theorem merge_eq_set (prev : List ChatMessage) (incoming : ChatMessage) (i : Nat)
    (hi : i < prev.length) (hmatch : (prev.get ⟨i, hi⟩).id = incoming.id)
    (hbefore : ∀ j, (hj : j < i) → (prev.get ⟨j, Nat.lt_trans hj hi⟩).id ≠ incoming.id) :
    merge prev incoming = prev.set i incoming := by
  induction prev generalizing i with
  | nil => exact absurd hi (Nat.not_lt_zero i)
  | cons a rest ih =>
    rw [merge_cons]
    cases i with
    | zero =>
      have : (a.id == incoming.id) = true := beq_iff_eq.mpr hmatch
      rw [this]
      simp
    | succ k =>
      have ha : (a.id == incoming.id) = false := by
        simp only [beq_eq_false_iff_ne, ne_eq]
        exact hbefore 0 (Nat.succ_pos k)
      rw [ha]
      simp only [Bool.false_eq_true, if_false, List.set_cons_succ, List.cons.injEq, true_and]
      exact ih k (Nat.lt_of_succ_lt_succ hi) hmatch
        (fun j hj => hbefore (j + 1) (Nat.succ_lt_succ hj))

/-- `merge` never shrinks the log. -/
theorem merge_length (prev : List ChatMessage) (incoming : ChatMessage) :
    prev.length ≤ (merge prev incoming).length := by
  unfold merge
  cases hfi : prev.findIdx? (fun m => m.id == incoming.id) with
  | some index => simp
  | none => simp

/-- Looking up the incoming id right after a `merge` always finds exactly
the incoming record. -/
theorem merge_find_self (prev : List ChatMessage) (incoming : ChatMessage) :
    (merge prev incoming).find? (fun m => m.id == incoming.id) = some incoming := by
  induction prev with
  | nil =>
    show List.find? _ [incoming] = some incoming
    simp [List.find?]
  | cons a rest ih =>
    rw [merge_cons]
    by_cases h : a.id == incoming.id
    · rw [if_pos h]
      simp [List.find?]
    · simp only [h, Bool.false_eq_true, if_false]
      rw [List.find?_cons]
      simp only [h]
      exact ih

/-! ### Lemmas about reaction toggling -/

/-- The `findIndex` predicate of the toggle holds exactly for the record
`⟨emoji, role⟩` itself: a `Reaction` has no other field. -/
theorem reactionMatches_iff (emoji : String) (role : Language) (r : Reaction) :
    reactionMatches emoji role r = true ↔ r = ⟨emoji, role⟩ := by
  rcases r with ⟨e, s⟩
  unfold reactionMatches
  simp only [Bool.and_eq_true, beq_iff_eq, Reaction.mk.injEq]

/-- The toggle predicate written through `BEq`. -/
theorem reactionMatches_eq_beq (emoji : String) (role : Language) (r : Reaction) :
    reactionMatches emoji role r = (r == (⟨emoji, role⟩ : Reaction)) := by
  rw [Bool.eq_iff_iff]
  simp only [reactionMatches_iff, beq_iff_eq]

/-- Unfolding of the toggle on a cons cell. -/
theorem toggleReactionList_cons (r : Reaction) (rest : List Reaction) (emoji : String)
    (role : Language) :
    toggleReactionList (r :: rest) emoji role =
      if r = ⟨emoji, role⟩ then rest else r :: toggleReactionList rest emoji role := by
  unfold toggleReactionList
  rw [List.findIdx?_cons]
  by_cases h : reactionMatches emoji role r = true
  · rw [if_pos h, if_pos ((reactionMatches_iff emoji role r).mp h)]
    rfl
  · rw [if_neg h, if_neg (fun he => h ((reactionMatches_iff emoji role r).mpr he))]
    cases hfi : rest.findIdx? (reactionMatches emoji role) <;> simp [hfi]

/-- A single toggle removes the first stored `⟨emoji, role⟩` reaction when
one is present and appends one otherwise. -/
theorem toggleReactionList_eq (rs : List Reaction) (emoji : String) (role : Language) :
    toggleReactionList rs emoji role =
      if (⟨emoji, role⟩ : Reaction) ∈ rs then rs.erase ⟨emoji, role⟩
      else rs ++ [⟨emoji, role⟩] := by
  induction rs with
  | nil => rfl
  | cons r rest ih =>
    rw [toggleReactionList_cons, List.erase_cons]
    by_cases h : r = ⟨emoji, role⟩
    · rw [if_pos h, if_pos (List.mem_cons.mpr (Or.inl h.symm)),
        if_pos (beq_iff_eq.mpr h)]
    · have hb : (r == (⟨emoji, role⟩ : Reaction)) = false := beq_eq_false_iff_ne.mpr h
      rw [if_neg h, ih]
      by_cases hm : (⟨emoji, role⟩ : Reaction) ∈ rest
      · rw [if_pos hm, if_pos (List.mem_cons.mpr (Or.inr hm)), if_neg (by simp [hb])]
      · rw [if_neg hm, if_neg (fun hc => (List.mem_cons.mp hc).elim (fun he => h he.symm) hm)]
        rfl

/-- The number of stored reactions for a pair equals `List.count` of the
pair's record. -/
theorem filter_reactionMatches_count (rs : List Reaction) (emoji : String) (role : Language) :
    (rs.filter (reactionMatches emoji role)).length = rs.count (⟨emoji, role⟩ : Reaction) := by
  rw [List.count, List.countP_eq_length_filter]
  congr 1
  exact List.filter_congr (fun r _ => reactionMatches_eq_beq emoji role r)

/-- Toggling the same pair twice restores the original reaction multiset,
provided the pair was stored at most once. -/
theorem toggleReactionList_twice_perm (rs : List Reaction) (emoji : String) (role : Language)
    (hcount : (rs.filter (reactionMatches emoji role)).length ≤ 1) :
    (toggleReactionList (toggleReactionList rs emoji role) emoji role).Perm rs := by
  rw [toggleReactionList_eq, toggleReactionList_eq]
  by_cases hx : (⟨emoji, role⟩ : Reaction) ∈ rs
  · rw [if_pos hx]
    have hc1 : rs.count (⟨emoji, role⟩ : Reaction) = 1 := by
      rw [filter_reactionMatches_count] at hcount
      exact Nat.le_antisymm hcount (List.count_pos_iff.mpr hx)
    have hnot : (⟨emoji, role⟩ : Reaction) ∉ rs.erase ⟨emoji, role⟩ := by
      rw [← List.count_eq_zero, List.count_erase_self, hc1]
    rw [if_neg hnot]
    exact (List.perm_append_singleton _ _).trans (List.perm_cons_erase hx).symm
  · rw [if_neg hx, if_pos (List.mem_append.mpr (Or.inr (List.mem_singleton.mpr rfl))),
      List.erase_append_right _ hx, List.erase_cons_head]
    simp

/-- Toggling preserves the at-most-one bound for every pair. -/
theorem toggleReactionList_preserves_uniq (rs : List Reaction) (emoji : String) (role : Language)
    (h : ∀ e s, (rs.filter (reactionMatches e s)).length ≤ 1) (e : String) (s : Language) :
    ((toggleReactionList rs emoji role).filter (reactionMatches e s)).length ≤ 1 := by
  rw [toggleReactionList_eq]
  by_cases hx : (⟨emoji, role⟩ : Reaction) ∈ rs
  · rw [if_pos hx]
    exact le_trans (List.Sublist.length_le ((List.erase_sublist _ _).filter _)) (h e s)
  · rw [if_neg hx, List.filter_append]
    by_cases hm : reactionMatches e s ⟨emoji, role⟩ = true
    · have hpair : (⟨emoji, role⟩ : Reaction) = ⟨e, s⟩ := (reactionMatches_iff e s _).mp hm
      have hnil : rs.filter (reactionMatches e s) = [] := by
        rw [List.filter_eq_nil_iff]
        intro a ha hpa
        apply hx
        have he : a = (⟨e, s⟩ : Reaction) := (reactionMatches_iff e s a).mp hpa
        rw [hpair.trans he.symm]
        exact ha
      rw [hnil]
      simp [hm]
    · simp only [List.filter_cons, hm, Bool.false_eq_true, if_false, List.filter_nil,
        List.append_nil]
      exact h e s

/-- Helper: a map over a list is `Forall₂`-related to the list pointwise. -/
theorem forall2_map_self {α : Type} {R : α → α → Prop} (g : α → α) (l : List α)
    (h : ∀ x ∈ l, R (g x) x) : List.Forall₂ R (l.map g) l := by
  induction l with
  | nil => exact List.Forall₂.nil
  | cons a l ih =>
    exact List.Forall₂.cons (h a (List.mem_cons_self a l))
      (ih fun x hx => h x (List.mem_cons_of_mem a hx))

/-! ### The claims -/

/-- Claim C1: the merge handler performs an upsert. If no entry of the log
carries the incoming id, the incoming message is appended at the end; if
position `i` holds the (first) entry with that id, that entire record is
replaced by the incoming message at position `i` (`List.set`), which keeps
every other entry in place; and merge never removes an entry (the log
never shrinks). -/
theorem merge_is_upsert (prev : List ChatMessage) (incoming : ChatMessage) :
    ((∀ m ∈ prev, m.id ≠ incoming.id) → merge prev incoming = prev ++ [incoming])
    ∧ (∀ i, (hi : i < prev.length) → (prev.get ⟨i, hi⟩).id = incoming.id →
        (∀ j, (hj : j < i) → (prev.get ⟨j, Nat.lt_trans hj hi⟩).id ≠ incoming.id) →
        merge prev incoming = prev.set i incoming)
    ∧ prev.length ≤ (merge prev incoming).length :=
  ⟨merge_eq_append prev incoming,
   fun i hi hmatch hbefore => merge_eq_set prev incoming i hi hmatch hbefore,
   merge_length prev incoming⟩

/-- Claim C2: merge is last-write-wins at message granularity. After two
merge deliveries for the same id, in either order, the stored record found
under that id is exactly the delivery applied last — in particular its
reactions are that delivery's reactions, never a union. -/
theorem merge_last_write_wins (prev : List ChatMessage) (m1 m2 : ChatMessage)
    (hid : m1.id = m2.id) :
    (merge (merge prev m1) m2).find? (fun m => m.id == m2.id) = some m2
    ∧ (merge (merge prev m2) m1).find? (fun m => m.id == m1.id) = some m1 :=
  ⟨merge_find_self (merge prev m1) m2, merge_find_self (merge prev m2) m1⟩

/-- Witness for C2 at a concrete input: two snapshots of message `"1"`
with different reaction sets, merged into a log holding message `"2"`. -/
theorem merge_last_write_wins_witness :
    (merge (merge [sampleMsg2] sampleMsg1) sampleMsg1').find?
        (fun m => m.id == sampleMsg1'.id) = some sampleMsg1'
    ∧ (merge (merge [sampleMsg2] sampleMsg1') sampleMsg1).find?
        (fun m => m.id == sampleMsg1.id) = some sampleMsg1 :=
  merge_last_write_wins [sampleMsg2] sampleMsg1 sampleMsg1' rfl

/-- Field projections of `toggleMsg`: only `reactions` is rebuilt. -/
theorem toggleMsg_id (emoji : String) (role : Language) (msg : ChatMessage) :
    (toggleMsg emoji role msg).id = msg.id := rfl

/-- Counterexample to C3 as stated: on the log `[sampleMsgR]`, whose only
entry holds the reactions `[⟨"heart", english⟩, ⟨"laugh", spanish⟩]`,
toggling `("heart", english)` twice yields the reactions
`[⟨"laugh", spanish⟩, ⟨"heart", english⟩]`: the same multiset, but not
exactly the original sequence — the removed reaction is re-appended at the
end, not at its old position. -/
theorem toggle_twice_not_sequence_identity :
    (handleToggleReaction
        ((handleToggleReaction [sampleMsgR] "1" "heart" (some Language.english)).1)
        "1" "heart" (some Language.english)).1 ≠ [sampleMsgR] := by
  decide

/-- Claim C3 (amended): on a log whose entries store the toggled
`(emoji, role)` pair at most once (the §3 uniqueness invariant), applying
the reaction toggle twice in succession returns every entry's reaction
sequence to a permutation of its original value — the reaction multiset is
restored, though a removed-and-re-added reaction moves to the end — with
all other fields unchanged; and a single application removes the first
stored `⟨emoji, role⟩` reaction if one is present and appends one
otherwise. -/
theorem toggle_twice_restores (messages : List ChatMessage) (msgId emoji : String)
    (role : Language)
    (hinv : ∀ msg ∈ messages,
      (msg.reactions.filter (reactionMatches emoji role)).length ≤ 1) :
    List.Forall₂ (fun m2 m =>
        m2.id = m.id ∧ m2.sender = m.sender ∧ m2.originalText = m.originalText ∧
        m2.translatedText = m.translatedText ∧ m2.timestamp = m.timestamp ∧
        m2.audioUrl = m.audioUrl ∧ m2.reactions.Perm m.reactions)
      ((handleToggleReaction
          ((handleToggleReaction messages msgId emoji (some role)).1)
          msgId emoji (some role)).1)
      messages
    ∧ (∀ msg ∈ messages,
        ((⟨emoji, role⟩ : Reaction) ∈ msg.reactions →
          toggleReactionList msg.reactions emoji role = msg.reactions.erase ⟨emoji, role⟩)
        ∧ ((⟨emoji, role⟩ : Reaction) ∉ msg.reactions →
          toggleReactionList msg.reactions emoji role = msg.reactions ++ [⟨emoji, role⟩])) := by
  constructor
  · show List.Forall₂ _
      ((messages.map fun msg => if msg.id == msgId then toggleMsg emoji role msg else msg).map
        fun msg => if msg.id == msgId then toggleMsg emoji role msg else msg)
      messages
    rw [List.map_map]
    apply forall2_map_self
    intro msg hmsg
    by_cases h : (msg.id == msgId) = true
    · simp only [Function.comp_apply, h, if_true, toggleMsg_id]
      exact ⟨True.intro, rfl, rfl, rfl, rfl, rfl,
        toggleReactionList_twice_perm msg.reactions emoji role (hinv msg hmsg)⟩
    · simp only [Bool.not_eq_true] at h
      simp only [Function.comp_apply, h, Bool.false_eq_true, if_false]
      exact ⟨True.intro, True.intro, True.intro, True.intro, True.intro, True.intro,
        List.Perm.refl _⟩
  · intro msg _
    constructor
    · intro hmem
      rw [toggleReactionList_eq, if_pos hmem]
    · intro hmem
      rw [toggleReactionList_eq, if_neg hmem]

/-- Witness for the amended C3 at a concrete input: the log `[sampleMsgR]`
satisfies the at-most-once bound for `("heart", english)`. -/
theorem toggle_twice_restores_witness :
    List.Forall₂ (fun m2 m =>
        m2.id = m.id ∧ m2.sender = m.sender ∧ m2.originalText = m.originalText ∧
        m2.translatedText = m.translatedText ∧ m2.timestamp = m.timestamp ∧
        m2.audioUrl = m.audioUrl ∧ m2.reactions.Perm m.reactions)
      ((handleToggleReaction
          ((handleToggleReaction [sampleMsgR] "1" "heart" (some Language.english)).1)
          "1" "heart" (some Language.english)).1)
      [sampleMsgR]
    ∧ (∀ msg ∈ [sampleMsgR],
        ((⟨"heart", Language.english⟩ : Reaction) ∈ msg.reactions →
          toggleReactionList msg.reactions "heart" Language.english =
            msg.reactions.erase ⟨"heart", Language.english⟩)
        ∧ ((⟨"heart", Language.english⟩ : Reaction) ∉ msg.reactions →
          toggleReactionList msg.reactions "heart" Language.english =
            msg.reactions ++ [⟨"heart", Language.english⟩])) :=
  toggle_twice_restores [sampleMsgR] "1" "heart" Language.english (by decide)

/-- Claim C4: toggling a message id absent from the log is the spec's
`NotFound` failure, realized in the source as a silent no-op: the log is
returned unchanged and nothing is broadcast. Once a message with that id
arrives via `merge`, the same toggle call succeeds: it updates the merged
record in place and broadcasts the update. -/
theorem toggle_missing_id (messages : List ChatMessage) (msgId emoji : String)
    (role : Language) (habs : ∀ m ∈ messages, m.id ≠ msgId) :
    handleToggleReaction messages msgId emoji (some role) = (messages, [])
    ∧ (∀ incoming : ChatMessage, incoming.id = msgId →
        handleToggleReaction (merge messages incoming) msgId emoji (some role) =
          (messages ++ [toggleMsg emoji role incoming], [toggleMsg emoji role incoming])) := by
  have hfalse : ∀ m ∈ messages, (m.id == msgId) = false :=
    fun m hm => beq_eq_false_iff_ne.mpr (habs m hm)
  have h1 : (messages.map fun msg =>
      if msg.id == msgId then toggleMsg emoji role msg else msg) = messages := by
    rw [List.map_congr_left (g := id) (fun a ha => by
      simp only [hfalse a ha, Bool.false_eq_true, if_false, id_eq]), List.map_id]
  have h2 : (messages.filterMap fun msg =>
      if msg.id == msgId then some (toggleMsg emoji role msg) else none) = [] := by
    rw [List.filterMap_eq_nil_iff]
    intro a ha
    simp only [hfalse a ha, Bool.false_eq_true, if_false]
  constructor
  · show (_, _) = (messages, ([] : List ChatMessage))
    rw [h1, h2]
  · intro incoming hid
    have hmerge : merge messages incoming = messages ++ [incoming] :=
      merge_eq_append messages incoming (fun m hm => by rw [hid]; exact habs m hm)
    have hc : (incoming.id == msgId) = true := beq_iff_eq.mpr hid
    have hmap1 : ([incoming].map fun msg =>
        if msg.id == msgId then toggleMsg emoji role msg else msg) =
        [toggleMsg emoji role incoming] := by
      simp only [List.map_cons, List.map_nil, hc, if_true]
    have hfm1 : ([incoming].filterMap fun msg =>
        if msg.id == msgId then some (toggleMsg emoji role msg) else none) =
        [toggleMsg emoji role incoming] := by
      simp only [List.filterMap_cons, hc, if_true, List.filterMap_nil]
    rw [hmerge]
    show (_, _) = (_, _)
    rw [List.map_append, List.filterMap_append, h1, h2, hmap1, hfm1, List.nil_append]

/-- Witness for C4 at a concrete input: the log holding only message `"2"`
has no entry with id `"1"`. -/
theorem toggle_missing_id_witness :
    handleToggleReaction [sampleMsg2] "1" "heart" (some Language.english) = ([sampleMsg2], [])
    ∧ (∀ incoming : ChatMessage, incoming.id = "1" →
        handleToggleReaction (merge [sampleMsg2] incoming) "1" "heart"
            (some Language.english) =
          ([sampleMsg2] ++ [toggleMsg "heart" Language.english incoming],
           [toggleMsg "heart" Language.english incoming])) :=
  toggle_missing_id [sampleMsg2] "1" "heart" Language.english (by decide)

/-- Claim C7: the sender's local log is updated by the operation itself,
independently of the sync channel: every record a text/voice send or a
reaction toggle publishes is already contained in the operation's own
resulting local log, so the sender never needs to receive its own
broadcast. -/
theorem publish_after_local_apply (messages : List ChatMessage)
    (result : TranslationResponse) (lang : Language) (now : Nat) (audioUrl : Option String)
    (msgId emoji : String) (myRole : Option Language) :
    (∀ b ∈ (handleTranslationResult messages result lang now audioUrl).2,
        b ∈ (handleTranslationResult messages result lang now audioUrl).1)
    ∧ (∀ b ∈ (handleToggleReaction messages msgId emoji myRole).2,
        b ∈ (handleToggleReaction messages msgId emoji myRole).1) := by
  constructor
  · intro b hb
    have hbe : b = createdMessage result lang now audioUrl := List.mem_singleton.mp hb
    rw [hbe]
    exact List.mem_append.mpr (Or.inr (List.mem_singleton.mpr rfl))
  · cases myRole with
    | none =>
      intro b hb
      exact absurd hb (List.not_mem_nil b)
    | some role =>
      intro b hb
      show b ∈ messages.map fun msg => if msg.id == msgId then toggleMsg emoji role msg else msg
      rcases List.mem_filterMap.mp hb with ⟨msg, hmsg, hmap⟩
      by_cases h : (msg.id == msgId) = true
      · rw [if_pos h] at hmap
        refine List.mem_map.mpr ⟨msg, hmsg, ?_⟩
        rw [if_pos h]
        exact Option.some.inj hmap
      · rw [if_neg h] at hmap
        exact Option.noConfusion hmap

/-- Claim C8: frame property of the reaction toggle: every entry of the
resulting log keeps its `id`, `sender`, `originalText`, `translatedText`,
`timestamp` and `audioUrl`, and every entry whose id differs from the
target is unchanged entirely — only the targeted message's `reactions`
field can change, and the log's shape is preserved position by position. -/
theorem toggle_frame (messages : List ChatMessage) (msgId emoji : String) (role : Language) :
    List.Forall₂ (fun m2 m =>
        m2.id = m.id ∧ m2.sender = m.sender ∧ m2.originalText = m.originalText ∧
        m2.translatedText = m.translatedText ∧ m2.timestamp = m.timestamp ∧
        m2.audioUrl = m.audioUrl ∧ (m.id ≠ msgId → m2 = m))
      ((handleToggleReaction messages msgId emoji (some role)).1) messages := by
  show List.Forall₂ _
    (messages.map fun msg => if msg.id == msgId then toggleMsg emoji role msg else msg) messages
  apply forall2_map_self
  intro msg hmsg
  by_cases h : (msg.id == msgId) = true
  · simp only [h, if_true]
    exact ⟨rfl, rfl, rfl, rfl, rfl, rfl, fun hne => absurd (beq_iff_eq.mp h) hne⟩
  · simp only [Bool.not_eq_true] at h
    simp only [h, Bool.false_eq_true, if_false]
    exact ⟨True.intro, True.intro, True.intro, True.intro, True.intro, True.intro,
      fun _ => True.intro⟩

/-! ### Decimal rendering of `Nat` and injectivity of the generated ids -/

/-- `Nat.toDigitsCore` computes `decChars` once the fuel covers the number. -/
theorem toDigitsCore_eq_decChars (fuel : Nat) :
    ∀ (n : Nat) (ds : List Char), 0 < fuel → n < 10 ^ fuel →
      Nat.toDigitsCore 10 fuel n ds = decChars n ++ ds := by
  induction fuel with
  | zero => intro n ds hf _; exact absurd hf (Nat.lt_irrefl 0)
  | succ f ih =>
    intro n ds _ hn
    show (if n / 10 = 0 then Nat.digitChar (n % 10) :: ds
      else Nat.toDigitsCore 10 f (n / 10) (Nat.digitChar (n % 10) :: ds)) = decChars n ++ ds
    by_cases hdiv : n / 10 = 0
    · rw [if_pos hdiv]
      have hn10 : n < 10 := by omega
      by_cases h0 : n = 0
      · rw [h0]
        rfl
      · unfold decChars
        rw [if_neg h0, Nat.digits_def' (by norm_num : (1 : ℕ) < 10) (Nat.pos_of_ne_zero h0),
          hdiv, Nat.digits_zero, List.map_cons, List.map_nil, List.reverse_cons,
          List.reverse_nil, List.nil_append, List.singleton_append]
    · rw [if_neg hdiv]
      have hf : 0 < f := by
        rcases Nat.eq_zero_or_pos f with hf0 | hf0
        · exfalso
          rw [hf0] at hn
          have : n < 10 := by simpa using hn
          omega
        · exact hf0
      have hlt : n / 10 < 10 ^ f := by
        rw [Nat.div_lt_iff_lt_mul (by norm_num : (0 : ℕ) < 10)]
        calc n < 10 ^ (f + 1) := hn
        _ = 10 ^ f * 10 := Nat.pow_succ 10 f
      rw [ih (n / 10) (Nat.digitChar (n % 10) :: ds) hf hlt]
      have h0 : n ≠ 0 := by omega
      unfold decChars
      rw [if_neg h0, if_neg hdiv,
        Nat.digits_def' (by norm_num : (1 : ℕ) < 10) (Nat.pos_of_ne_zero h0),
        List.map_cons, List.reverse_cons, List.append_assoc, List.singleton_append]

/-- `Nat.toDigits 10` computes `decChars`. -/
theorem toDigits_eq_decChars (n : Nat) : Nat.toDigits 10 n = decChars n := by
  have hlt : n < 10 ^ (n + 1) :=
    lt_of_lt_of_le (Nat.lt_pow_self (by norm_num) n)
      (Nat.pow_le_pow_right (by norm_num) (Nat.le_succ n))
  show Nat.toDigitsCore 10 (n + 1) n [] = decChars n
  rw [toDigitsCore_eq_decChars (n + 1) n [] (Nat.succ_pos n) hlt, List.append_nil]

/-- `Nat.digitChar` is injective below the base 10. -/
theorem digitChar_inj_fin : ∀ a b : Fin 10,
    Nat.digitChar a.val = Nat.digitChar b.val → a = b := by decide

/-- Mapping `Nat.digitChar` over digit lists below 10 is injective. -/
theorem map_digitChar_inj : ∀ (l1 l2 : List Nat), (∀ x ∈ l1, x < 10) → (∀ x ∈ l2, x < 10) →
    l1.map Nat.digitChar = l2.map Nat.digitChar → l1 = l2 := by
  intro l1
  induction l1 with
  | nil =>
    intro l2 _ _ h
    cases l2 with
    | nil => rfl
    | cons b t2 => exact absurd h.symm (by simp)
  | cons a t1 ih =>
    intro l2 h1 h2 h
    cases l2 with
    | nil => exact absurd h (by simp)
    | cons b t2 =>
      rw [List.map_cons, List.map_cons] at h
      have hab : a = b := by
        have ha : a < 10 := h1 a (List.mem_cons_self a t1)
        have hb : b < 10 := h2 b (List.mem_cons_self b t2)
        exact congrArg Fin.val
          (digitChar_inj_fin ⟨a, ha⟩ ⟨b, hb⟩ (List.head_eq_of_cons_eq h))
      have htl : t1 = t2 :=
        ih t2 (fun x hx => h1 x (List.mem_cons_of_mem a hx))
          (fun x hx => h2 x (List.mem_cons_of_mem b hx)) (List.tail_eq_of_cons_eq h)
      rw [hab, htl]

/-- `decChars` is injective: distinct numbers render to distinct strings. -/
theorem decChars_injective (m n : Nat) (h : decChars m = decChars n) : m = n := by
  have key : ∀ k : Nat, k ≠ 0 → decChars k ≠ ['0'] := by
    intro k hk habs
    unfold decChars at habs
    rw [if_neg hk] at habs
    have hmap : (Nat.digits 10 k).map Nat.digitChar = ['0'] := by
      have := congrArg List.reverse habs
      rwa [List.reverse_reverse] at this
    cases hd : Nat.digits 10 k with
    | nil => exact hk (Nat.digits_eq_nil_iff_eq_zero.mp hd)
    | cons d rest =>
      rw [hd, List.map_cons] at hmap
      have hrest : rest = [] := by
        have := List.tail_eq_of_cons_eq hmap
        cases rest with
        | nil => rfl
        | cons _ _ => exact absurd this (by simp)
      have hdeq : Nat.digitChar d = '0' := List.head_eq_of_cons_eq hmap
      have hdlt : d < 10 :=
        Nat.digits_lt_base (by norm_num) (hd ▸ List.mem_cons_self d rest)
      have hd0 : d = 0 :=
        congrArg Fin.val (digitChar_inj_fin ⟨d, hdlt⟩ ⟨0, by norm_num⟩ hdeq)
      have hzero : Nat.digits 10 k = [0] := by rw [hd, hrest, hd0]
      have hof := Nat.ofDigits_digits 10 k
      rw [hzero, Nat.ofDigits_singleton] at hof
      exact hk hof.symm
  by_cases hm : m = 0 <;> by_cases hn : n = 0
  · rw [hm, hn]
  · exfalso
    apply key n hn
    rw [← h, hm]
    rfl
  · exfalso
    apply key m hm
    rw [h, hn]
    rfl
  · unfold decChars at h
    rw [if_neg hm, if_neg hn] at h
    have hmap : (Nat.digits 10 m).map Nat.digitChar = (Nat.digits 10 n).map Nat.digitChar :=
      List.reverse_inj.mp h
    have hdig : Nat.digits 10 m = Nat.digits 10 n :=
      map_digitChar_inj _ _ (fun x hx => Nat.digits_lt_base (by norm_num) hx)
        (fun x hx => Nat.digits_lt_base (by norm_num) hx) hmap
    calc m = Nat.ofDigits 10 (Nat.digits 10 m) := (Nat.ofDigits_digits 10 m).symm
    _ = Nat.ofDigits 10 (Nat.digits 10 n) := by rw [hdig]
    _ = n := Nat.ofDigits_digits 10 n

/-- `Nat.repr` is injective: distinct `Date.now()` values yield distinct
id strings. -/
theorem natRepr_injective (m n : Nat) (h : Nat.repr m = Nat.repr n) : m = n := by
  have h2 : (Nat.toDigits 10 m).asString = (Nat.toDigits 10 n).asString := h
  have h3 : Nat.toDigits 10 m = Nat.toDigits 10 n := congrArg String.data h2
  apply decChars_injective
  rw [← toDigits_eq_decChars, ← toDigits_eq_decChars, h3]

/-- Counterexample to C5 as stated: two creations that fall in the same
millisecond (`Date.now()` returns `5` both times) build two distinct
messages — different sender and texts — that share the id `"5"`. -/
theorem created_ids_collide_same_millisecond :
    ((handleTranslationResult
        ((handleTranslationResult [] ⟨"hola", "hello"⟩ Language.english 5 none).1)
        ⟨"adios", "bye"⟩ Language.spanish 5 none).1.map ChatMessage.id = ["5", "5"])
    ∧ ((handleTranslationResult
        ((handleTranslationResult [] ⟨"hola", "hello"⟩ Language.english 5 none).1)
        ⟨"adios", "bye"⟩ Language.spanish 5 none).1).Nodup := by
  decide

/-- Claim C5 (amended): message creation derives the id from the creation
instant (`Date.now().toString()`), so two messages created at distinct
`Date.now()` values have distinct ids; creations falling in the same
millisecond collide, as the counterexample shows. -/
theorem created_ids_distinct (r1 r2 : TranslationResponse) (l1 l2 : Language)
    (a1 a2 : Option String) (n1 n2 : Nat) (h : n1 ≠ n2) :
    (createdMessage r1 l1 n1 a1).id ≠ (createdMessage r2 l2 n2 a2).id :=
  fun he => h (natRepr_injective n1 n2 he)

/-- Witness for the amended C5 at concrete creation instants 5 and 6. -/
theorem created_ids_distinct_witness :
    (createdMessage ⟨"hola", "hello"⟩ Language.english 5 none).id ≠
      (createdMessage ⟨"adios", "bye"⟩ Language.spanish 6 none).id :=
  created_ids_distinct ⟨"hola", "hello"⟩ ⟨"adios", "bye"⟩ Language.english Language.spanish
    none none 5 6 (by decide)

/-- Claim C6: calling `stopRecording` while the recorder is `Idle` — no
recorder installed, which is the initial state and is also what a failed
`startRecording` leaves behind — fails with `NoActiveRecording`, never
resolves with an audio payload, and performs no state change (the error
branch writes nothing, and a failed start returns the state unchanged). -/
theorem stop_from_idle (st : RecorderState) (h : st.mediaRecorder = none) :
    stopRecording st = .error .NoActiveRecording
    ∧ (∀ (payload : String) (st' : RecorderState), stopRecording st ≠ .ok (payload, st'))
    ∧ initialRecorderState.mediaRecorder = none
    ∧ startRecording st false = st := by
  have h1 : stopRecording st = .error .NoActiveRecording := by
    unfold stopRecording
    rw [h]
  exact ⟨h1,
    fun payload st' hok => by rw [h1] at hok; exact Except.noConfusion hok,
    rfl, rfl⟩

/-- Witness for C6 at the concrete initial recorder state. -/
theorem stop_from_idle_witness :
    stopRecording initialRecorderState = .error .NoActiveRecording
    ∧ (∀ (payload : String) (st' : RecorderState),
        stopRecording initialRecorderState ≠ .ok (payload, st'))
    ∧ initialRecorderState.mediaRecorder = none
    ∧ startRecording initialRecorderState false = initialRecorderState :=
  stop_from_idle initialRecorderState rfl

/-- Claim C9: starting from the empty log, every sequence of local
operations — message creations and reaction toggles — preserves the §3
uniqueness invariant: each stored message holds at most one reaction per
`(emoji, sender)` pair. Creation starts with an empty reaction list; a
toggle either removes the stored pair or appends a pair that was absent. -/
theorem local_ops_preserve_reaction_uniq (ops : List LocalOp) :
    ReactionUniq (ops.foldl applyLocalOp []) := by
  have hstep : ∀ (log : List ChatMessage) (op : LocalOp),
      ReactionUniq log → ReactionUniq (applyLocalOp log op) := by
    intro log op hlog
    cases op with
    | createOp result lang now audioUrl =>
      intro m hm e s
      rcases List.mem_append.mp hm with hm' | hm'
      · exact hlog m hm' e s
      · rw [List.mem_singleton.mp hm']
        show ((List.filter _ []).length ≤ 1)
        simp
    | toggleOp msgId emoji role =>
      intro m hm e s
      rcases List.mem_map.mp (show m ∈ log.map fun msg =>
          if msg.id == msgId then toggleMsg emoji role msg else msg from hm)
        with ⟨m0, hm0, hfm⟩
      by_cases hc : (m0.id == msgId) = true
      · rw [if_pos hc] at hfm
        rw [← hfm]
        exact toggleReactionList_preserves_uniq m0.reactions emoji role
          (fun e' s' => hlog m0 hm0 e' s') e s
      · rw [if_neg hc] at hfm
        rw [← hfm]
        exact hlog m0 hm0 e s
  have hfold : ∀ (rest : List LocalOp) (log : List ChatMessage),
      ReactionUniq log → ReactionUniq (rest.foldl applyLocalOp log) := by
    intro rest
    induction rest with
    | nil => intro log hlog; exact hlog
    | cons op rest' ih => intro log hlog; exact ih _ (hstep log op hlog)
  exact hfold ops [] (fun m hm => absurd hm (List.not_mem_nil m))

/-- Claim C10: the text-send guard: when the trimmed input is empty, a
send is already in flight, or no role is bound, `handleSendText` is a
no-op — the log is unchanged, nothing is broadcast, the translation
gateway is never called, and the input field keeps its content. -/
theorem send_text_guard (inputText : String) (isProcessing : Bool)
    (myRole : Option Language) (messages : List ChatMessage)
    (translate : String → Language → TranslationResponse) (now : Nat)
    (h : inputText.trim = "" ∨ isProcessing = true ∨ myRole = none) :
    handleSendText inputText isProcessing myRole messages translate now =
      { messages := messages, broadcasts := [], translationCalls := []
        inputText := inputText } := by
  unfold handleSendText
  rw [if_pos h]

/-- Witness for C10 with a send already in flight (`isProcessing = true`). -/
theorem send_text_guard_witness :
    handleSendText "hi" true (some Language.english) [] (fun _ _ => ⟨"hi", "hello"⟩) 7 =
      { messages := [], broadcasts := [], translationCalls := [], inputText := "hi" } :=
  send_text_guard "hi" true (some Language.english) [] (fun _ _ => ⟨"hi", "hello"⟩) 7
    (Or.inr (Or.inl rfl))

end Besos
